import Mathlib

/-!
Verification development for the zeesheet layout core: a shallow embedding of
`src/sheet/layout/optimizer.py` (two-stage bounded optimizer and its parameter
codec) and `src/sheet/placed.py` (placement quality model), with theorems
settling the specification claims about them.

Modelling conventions:
* Python `int` is `ℤ`; Python `float` scores, weights and fractions are `ℚ`
  (the claims under study are structural, not about binary floating point).
* Python functions that can raise return `Option` (`none` models an exception
  or an absent `None` value, as noted at each definition).
* The SciPy bounded Powell minimizer is an external collaborator; it is
  modelled as an oracle that, given the objective and the start vector,
  reports which points it evaluated, whether it succeeded, and the final
  vector and value.
-/

/-! ## Parameter codec (`src/sheet/layout/optimizer.py`) -/

/-- `OptParams` from optimizer.py: an integer tuple with shared inclusive
bounds `low`, `high` for every element. -/
structure OptParams where
  value : List ℤ
  low : ℤ
  high : ℤ
deriving DecidableEq

/-- `OptParams.__len__`: the length of the value tuple.  Python truthiness of
an `OptParams` (`if opt1:` in `run`) therefore tests `len(opt1.value) != 0`. -/
def OptParams.len (p : OptParams) : ℕ := p.value.length

/-- Python `round`: round half to even (banker's rounding), as used by
`_from_fraction`. -/
def pyRound (q : ℚ) : ℤ :=
  let f := ⌊q⌋
  if q - f < 1/2 then f
  else if 1/2 < q - f then f + 1
  else if Even f then f else f + 1

/-- `_from_fraction(x, a, b)`: decode a fraction to an integer in `[a, b]`.
`none` models the `ValueError` raised when `a > b`. -/
def _from_fraction (x : ℚ) (a b : ℤ) : Option ℤ :=
  if a = b then some a
  else if a < b then some (pyRound ((a : ℚ) + x * ((b : ℚ) - (a : ℚ))))
  else none

/-- `_to_fraction(x, a, b)`: encode an integer as a fraction of `[a, b]`.
`none` models the `ValueError` raised when `a > b`. -/
def _to_fraction (x : ℤ) (a b : ℤ) : Option ℚ :=
  if a = b then some (1/2)
  else if a < b then some (((x : ℚ) - (a : ℚ)) / ((b : ℚ) - (a : ℚ)))
  else none

/-- `_params2array(x)`: encode every element against the shared bounds;
`none` when any encoding raises. -/
def _params2array (x : OptParams) : Option (List ℚ) :=
  x.value.mapM (fun v => _to_fraction v x.low x.high)

/-- `_array2tuple(x, base)`: decode a float vector to an integer tuple against
`base`'s bounds; `none` when any decoding raises. -/
def _array2tuple (x : List ℚ) (base : OptParams) : Option (List ℤ) :=
  x.mapM (fun v => _from_fraction v base.low base.high)

/-- `_array2params(x, base)`: decode a float vector to an `OptParams` with
`base`'s bounds. -/
def _array2params (x : List ℚ) (base : OptParams) : Option OptParams :=
  (_array2tuple x base).map (fun t => OptParams.mk t base.low base.high)

/-! ## Two-stage optimizer (`src/sheet/layout/optimizer.py`) -/

/-- The outcome of one call to the external bounded minimizer
(`scipy.optimize.minimize`, Powell method): whether it reports success, the
final vector `xopt`, the final objective value `fval`, and `trials`, the
sequence of points at which it evaluated the objective. -/
structure MinimizeOutcome where
  success : Bool
  xopt : List ℚ
  fval : ℚ
  trials : List (List ℚ)

/-- The external minimizer as an oracle: given the (fallible) objective and
the start vector it produces a `MinimizeOutcome`.  The `[0,1]` box bounds are
internal to the oracle. -/
def Minimizer : Type :=
  (List ℚ → Option ℚ) → List ℚ → MinimizeOutcome

/-- The abstract problem interface of `OptimizeProblem`: the three overridable
hooks `score`, `stage2parameters` and `validity_error` supplied by a concrete
layout problem. -/
structure OptimizeProblem where
  score : List ℤ → List ℤ → ℚ
  stage2parameters : List ℤ → OptParams
  validity_error : OptParams → ℚ

/-- `OptimizeProblem._minimize`, also returning the list of evaluated trial
points (the Python closure observes them through side effects).  The first
component is `none` when the call raises (bad bounds, or some trial's
objective raised or produced a non-numeric value); `some none` models the
`(None, None)` returned when the minimizer reports failure. -/
def _minimizeFull (M : Minimizer) (func : List ℤ → Option ℚ) (x_init : OptParams) :
    Option (Option (ℚ × OptParams)) × List (List ℚ) :=
  match _params2array x_init with
  | none => (none, [])
  | some x0 =>
    let adapter : List ℚ → Option ℚ := fun x => (_array2tuple x x_init).bind func
    let out := M adapter x0
    if out.trials.any (fun t => (adapter t).isNone) then (none, out.trials)
    else if out.success then
      match _array2params out.xopt x_init with
      | none => (none, out.trials)
      | some p => (some (some (out.fval, p)), out.trials)
    else (some none, out.trials)

/-- `OptimizeProblem._minimize`: the `(float, OptParams)` result alone. -/
def _minimize (M : Minimizer) (func : List ℤ → Option ℚ) (x_init : OptParams) :
    Option (Option (ℚ × OptParams)) :=
  (_minimizeFull M func x_init).1

/-- The `stage2func` closure inside `OptimizeProblem._stage2optimize`: apply
the validity gate to the fine trial `x2`, returning the smooth penalty
`1e6 * (1 + err^2)` when invalid and the caller's score otherwise. -/
def stage2func (P : OptimizeProblem) (params1 : List ℤ) (params2init : OptParams)
    (x2 : List ℤ) : Option ℚ :=
  let err := P.validity_error (OptParams.mk x2 params2init.low params2init.high)
  if 0 < err then some (1000000 * (1 + err * err))
  else some (P.score params1 x2)

/-- `OptimizeProblem._stage2optimize(params1)`.  Result `none` models an
exception escaping; `some (f, p2)` is the returned pair, in which `f = none`
models Python `None` for the score and `p2 = none` models `None` for the fine
parameters. -/
def _stage2optimize (P : OptimizeProblem) (M : Minimizer) (params1 : List ℤ) :
    Option (Option ℚ × Option OptParams) :=
  let params2init := P.stage2parameters params1
  let err := P.validity_error params2init
  if 0 < err then some (some (1000000 * (1 + err * err)), none)
  else
    match _minimize M (stage2func P params1 params2init) params2init with
    | none => none
    | some none => some (none, none)
    | some (some (f, p)) => some (some f, some p)

/-- The `stage1func` closure inside `OptimizeProblem.run`: run stage 2 for the
coarse trial and hand its score back to the outer minimizer.  `none` models
both an exception inside stage 2 and the Python `None` returned when the
stage-2 minimizer failed to converge. -/
def stage1func (P : OptimizeProblem) (M : Minimizer) (params1 : List ℤ) : Option ℚ :=
  match _stage2optimize P M params1 with
  | none => none
  | some (f, _) => f

/-- The `best_combos` cache built by `stage1func` during the stage-1 search:
one entry per evaluated trial that decoded and whose stage-2 call returned,
keyed by the decoded coarse tuple.  Values are a pure function of the key, so
the write-order of the Python dict is immaterial. -/
def stage1cache (P : OptimizeProblem) (M : Minimizer) (x_init : OptParams)
    (trials : List (List ℚ)) : List (List ℤ × (Option ℚ × Option OptParams)) :=
  trials.filterMap (fun t =>
    (_array2tuple t x_init).bind (fun p1 =>
      (_stage2optimize P M p1).map (fun e => (p1, e))))

/-- Python `dict` lookup on the cache (values are determined by their keys,
so first-match lookup agrees with last-write-wins). -/
def dictFind (cache : List (List ℤ × (Option ℚ × Option OptParams))) (k : List ℤ) :
    Option (Option ℚ × Option OptParams) :=
  match cache with
  | [] => none
  | (k2, v) :: rest => if k2 = k then some v else dictFind rest k

/-- `OptimizeProblem.run(x1init)`: stage-1 search over the coarse parameters,
then recovery of the cached stage-2 pair for the winning coarse tuple.
`none` models an exception escaping `run` (including a `KeyError` on the
cache); `some (f, o1, o2)` is the returned triple with `none` components
modelling Python `None`.  The guard `if opt1:` is Python truthiness: `opt1`
is falsy when it is `None` (the `(some none, _)` branch) and also, through
`OptParams.__len__`, when its value tuple is empty. -/
def OptimizeProblem.run (P : OptimizeProblem) (M : Minimizer) (x1init : OptParams) :
    Option (Option ℚ × Option OptParams × Option OptParams) :=
  match _minimizeFull M (stage1func P M) x1init with
  | (none, _) => none
  | (some none, _) => some (none, none, none)
  | (some (some (_, opt1)), trials) =>
    if opt1.len ≠ 0 then
      match dictFind (stage1cache P M x1init trials) opt1.value with
      | none => none
      | some (f, opt2) => some (f, some opt1, opt2)
    else some (none, none, none)

/-! ## Placement model (`src/sheet/placed.py`) -/

/-- Modelled from the spec: `common.Rect` (module `sheet/common.py` is not
among the provided sources; only its callers are).  A rectangle given by its
`left`, `top`, `right`, `bottom` edges, with `width = right - left` and
`height = bottom - top`, a `move` that translates all edges, and `union`
taking the smallest enclosing rectangle.  Coordinates are integers, as in all
uses by the provided tests. -/
structure Rect where
  left : ℤ
  top : ℤ
  right : ℤ
  bottom : ℤ
deriving DecidableEq

/-- Modelled from the spec: `Rect.width`. -/
def Rect.width (r : Rect) : ℤ := r.right - r.left

/-- Modelled from the spec: `Rect.height`. -/
def Rect.height (r : Rect) : ℤ := r.bottom - r.top

/-- Modelled from the spec: `Rect.move(dx, dy)` translates the rectangle. -/
def Rect.move (r : Rect) (dx dy : ℤ) : Rect :=
  Rect.mk (r.left + dx) (r.top + dy) (r.right + dx) (r.bottom + dy)

/-- Modelled from the spec: union of two rectangles (smallest enclosing). -/
def Rect.union2 (a b : Rect) : Rect :=
  Rect.mk (min a.left b.left) (min a.top b.top) (max a.right b.right) (max a.bottom b.bottom)

/-- Modelled from the spec: `Rect.union` over a nonempty sequence. -/
def Rect.unionList (r : Rect) (rs : List Rect) : Rect :=
  rs.foldl Rect.union2 r

/-- The measured fields of a `PlacedContent` node: the requested and actual
rectangles and the quality statistics read off after rendering. -/
structure PStats where
  requested : Rect
  actual : Rect
  ok_breaks : ℚ
  bad_breaks : ℚ
  unused_width : ℤ
  internal_variance : ℚ
deriving DecidableEq

/-- `PlacedContent.error_from_breaks(multiplier_bad, multiplier_good)`. -/
def PlacedContent.error_from_breaks (s : PStats) (multiplier_bad multiplier_good : ℚ) : ℚ :=
  multiplier_bad * s.bad_breaks + multiplier_good * s.ok_breaks

/-- `PlacedContent.error_from_size(multiplier_bad, multiplier_good)`. -/
def PlacedContent.error_from_size (s : PStats) (multiplier_bad multiplier_good : ℚ) : ℚ :=
  if s.unused_width < 0 then ((-s.unused_width : ℤ) : ℚ) * multiplier_bad
  else ((s.unused_width : ℤ) : ℚ) * multiplier_good

/-- `PlacedContent.error_from_variance(multiplier)`. -/
def PlacedContent.error_from_variance (s : PStats) (multiplier : ℚ) : ℚ :=
  multiplier * s.internal_variance

/-- `PlacedContent.move(dx, dy)` on the measured fields: translate both the
requested and the actual rectangle, leaving all statistics unchanged. -/
def PStats.moveBy (dx dy : ℤ) (s : PStats) : PStats :=
  PStats.mk (s.requested.move dx dy) (s.actual.move dx dy)
    s.ok_breaks s.bad_breaks s.unused_width s.internal_variance

/-- A placed-content tree: a leaf node (paragraph, image, table, rect, path)
or a `PlacedGroupContent` owning an ordered list of children. -/
inductive Placed where
  | leaf (s : PStats)
  | group (s : PStats) (children : List Placed)

/-- The node's own measured fields. -/
def Placed.stats : Placed → PStats
  | .leaf s => s
  | .group s _ => s

/-- The node's children (`PlacedGroupContent.group`; empty for leaves). -/
def Placed.children : Placed → List Placed
  | .leaf _ => []
  | .group _ cs => cs

/-- `PlacedContent.move` / `PlacedGroupContent.move`: translate the node's
rectangles and recursively move every child by the same offsets. -/
def Placed.move (dx dy : ℤ) : Placed → Placed
  | .leaf s => .leaf (PStats.moveBy dx dy s)
  | .group s cs => .group (PStats.moveBy dx dy s) (cs.attach.map (fun c => Placed.move dx dy c.val))
decreasing_by
  have h := List.sizeOf_lt_of_mem c.property
  simp only [Placed.group.sizeOf_spec]
  omega

/-- The fields of an `ErrorContent` node for `bounds`: a `PlacedRectContent`
whose requested and actual rectangles are both `bounds`, with no breaks, no
variance and zero unused width. -/
def errorContentStats (bounds : Rect) : PStats :=
  PStats.mk bounds bounds 0 0 (bounds.width - bounds.width) 0

/-- `ErrorContent.error_from_size(multiplier_bad, multiplier_good)`:
the override returning `1e9 - actual.width * actual.height`, ignoring both
weight arguments. -/
def ErrorContent.error_from_size (s : PStats) (multiplier_bad multiplier_good : ℚ) : ℚ :=
  1000000000 - ((s.actual.width * s.actual.height : ℤ) : ℚ)

/-- Set `used[i] = 1` with Python sequence-index semantics: a negative index
wraps once from the end; an index out of `[-len, len)` raises `IndexError`
(modelled as `none`). -/
def pySetIndex (used : List Bool) (i : ℤ) : Option (List Bool) :=
  let n : ℤ := used.length
  if 0 ≤ i ∧ i < n then some (used.set i.toNat true)
  else if -n ≤ i ∧ i < 0 then some (used.set (n + i).toNat true)
  else none

/-- The inner `for i in range(lo, lo + count): used[i] = 1` loop of
`_unused_horizontal_strip`. -/
def markRange (used : List Bool) (lo : ℤ) : ℕ → Option (List Bool)
  | 0 => some used
  | n + 1 => (pySetIndex used lo).bind (fun u => markRange u (lo + 1) n)

/-- `_unused_horizontal_strip(group, bounds)`: build a 1-pixel occupancy
array over the bounds' width, mark for every child the columns covered by its
requested rectangle shrunk by its `unused_width` (half, rounded down, taken
from the left edge and the remainder from the right edge), and count the
unmarked columns.  `none` models an exception (negative width, or an index
outside the array). -/
def _unused_horizontal_strip (group : List PStats) (bounds : Rect) : Option ℤ :=
  if bounds.width < 0 then none
  else
    let ox := bounds.left
    let init : Option (List Bool) := some (List.replicate bounds.width.toNat false)
    let marked := group.foldl
      (fun acc g => acc.bind (fun used =>
        let d := g.unused_width
        let left := g.requested.left + Int.fdiv d 2
        let right := g.requested.right - d + Int.fdiv d 2
        markRange used (left - ox) ((right - ox) - (left - ox)).toNat)) init
    marked.map (fun used => bounds.width - (used.countP id : ℕ))

/-- Python `sorted(group, key=lambda x: x.requested.top)`: a stable sort by
the top edge, modelled by a stable insertion sort (any stable sort on the
same key yields the same list as Python's stable sort). -/
def pySortedByTop (group : List PStats) : List PStats :=
  List.insertionSort (fun a b => a.requested.top ≤ b.requested.top) group

/-- The scan-down loop of `calculate_unused_width_for_group`: each step takes
the band of items whose tops lie above the first item's bottom, but (as in
the source) evaluates the horizontal strip on the full sorted item list
`allItems`; the accumulated minimum is threaded through `unused`.  The `fuel`
argument only makes the recursion structural: every iteration consumes the
band's first item, so fuel `items.length` is never exhausted. -/
def bandsLoop (allItems : List PStats) (bounds : Rect) :
    ℕ → List PStats → ℤ → Option ℤ
  | _, [], unused => some unused
  | 0, _ :: _, unused => some unused
  | fuel + 1, x :: rest, unused =>
    let lower := x.requested.bottom
    let rest2 := rest.dropWhile (fun y => decide (y.requested.top < lower))
    match _unused_horizontal_strip allItems bounds with
    | none => none
    | some s => bandsLoop allItems bounds fuel rest2 (min unused s)

/-- `calculate_unused_width_for_group(group, bounds)`: sort the children by
the tops of their requested rectangles and scan down the bands, starting the
running minimum at the bounds' width. -/
def calculate_unused_width_for_group (group : List PStats) (bounds : Rect) : Option ℤ :=
  let items := pySortedByTop group
  bandsLoop items bounds items.length items bounds.width

/-- Modelled from the spec: the per-band variant of the scan-down loop, in
which each band's strip is computed from that band's children only (the
children accumulated in `across`), as the spec describes. -/
def bandsLoopSpec (bounds : Rect) : ℕ → List PStats → ℤ → Option ℤ
  | _, [], unused => some unused
  | 0, _ :: _, unused => some unused
  | fuel + 1, x :: rest, unused =>
    let lower := x.requested.bottom
    let across := x :: rest.takeWhile (fun y => decide (y.requested.top < lower))
    let rest2 := rest.dropWhile (fun y => decide (y.requested.top < lower))
    match _unused_horizontal_strip across bounds with
    | none => none
    | some s => bandsLoopSpec bounds fuel rest2 (min unused s)

/-- Modelled from the spec: `calculate_unused_width_for_group` as the spec
states it, with each band's occupancy computed from the children of that band
alone. -/
def calculate_unused_width_for_group_spec (group : List PStats) (bounds : Rect) : Option ℤ :=
  let items := pySortedByTop group
  bandsLoopSpec bounds items.length items bounds.width

/-- A `PlacedGroupContent` object as built by `__init__`: the filtered
`group` list plus the base-class fields, which are absent (`none`) when the
constructor returned early on an empty filtered list. -/
structure GroupObj where
  group : List PStats
  base : Option PStats
deriving DecidableEq

/-- `PlacedGroupContent.__init__(children, requested, actual)`: filter out
falsy children, return early (leaving every base field unset) when none
remain, otherwise take the actual rectangle (defaulting to the union of the
children's actual rectangles), sum the break counts, and compute the unused
width — the raw deficit on overflow, else the group scan.  The outer `none`
models an exception escaping the constructor. -/
def mkGroup (children : List (Option PStats)) (requested : Rect) (actualArg : Option Rect) :
    Option GroupObj :=
  let g := children.filterMap id
  match g with
  | [] => some (GroupObj.mk [] none)
  | g0 :: grest =>
    let actual := actualArg.getD (Rect.unionList g0.actual (grest.map PStats.actual))
    let ok := (g0 :: grest).foldl (fun a c => a + c.ok_breaks) 0
    let bad := (g0 :: grest).foldl (fun a c => a + c.bad_breaks) 0
    let uw : Option ℤ :=
      if requested.width < actual.width then some (requested.width - actual.width)
      else calculate_unused_width_for_group (g0 :: grest) requested
    uw.map (fun u => GroupObj.mk (g0 :: grest)
      (some (PStats.mk requested actual ok bad u 0)))

/-- `PlacedGroupContent.error_from_size` called on the constructed object:
reads the base-class fields, so it raises `AttributeError` (`none`) when the
constructor returned early. -/
def GroupObj.error_from_size (o : GroupObj) (multiplier_bad multiplier_good : ℚ) : Option ℚ :=
  o.base.map (fun s => PlacedContent.error_from_size s multiplier_bad multiplier_good)

/-- `PlacedGroupContent.move` called on the constructed object: moves the
base rectangles and every child; raises `AttributeError` (`none`) when the
constructor returned early. -/
def GroupObj.move (o : GroupObj) (dx dy : ℤ) : Option GroupObj :=
  o.base.map (fun s => GroupObj.mk (o.group.map (PStats.moveBy dx dy)) (some (PStats.moveBy dx dy s)))

/-- `PlacedGroupContent.draw` called on the constructed object: the first
access is to the unset `pdf` base field, so it raises `AttributeError`
(`none`) when the constructor returned early; actual painting is the external
canvas collaborator, modelled as `Unit`. -/
def GroupObj.draw (o : GroupObj) : Option Unit :=
  o.base.map (fun _ => ())

/-! ## Concrete instances used by counterexamples and witnesses -/

/-- A trivially feasible concrete problem used to exercise optimizer paths. -/
def demoProblem : OptimizeProblem where
  score := fun _ _ => 0
  stage2parameters := fun _ => OptParams.mk [0] 0 1
  validity_error := fun _ => 0

/-- A problem whose validity error is the sum of the parameter values, used
to exercise the validity gate. -/
def gateDemoProblem : OptimizeProblem where
  score := fun _ _ => 0
  stage2parameters := fun _ => OptParams.mk [2] 0 1
  validity_error := fun q => ((q.value.sum : ℤ) : ℚ)

/-- A problem with degenerate bounds on the fine parameters, keeping witness
computations on exactly representable fractions. -/
def degenProblem : OptimizeProblem where
  score := fun _ _ => 0
  stage2parameters := fun _ => OptParams.mk [7] 7 7
  validity_error := fun _ => 0

/-- A minimizer oracle that always reports failure without evaluating any
trial point. -/
def failingMinimizer : Minimizer := fun _ _ => MinimizeOutcome.mk false [] 0 []

/-- A minimizer oracle that evaluates the start vector once and returns it
as a successful optimum. -/
def echoMinimizer : Minimizer := fun _ x0 => MinimizeOutcome.mk true x0 0 [x0]

/-- Bounds rectangle for the band counterexample: (0,0)-(10,30). -/
def bandBounds : Rect := Rect.mk 0 0 10 30

/-- First band child: occupies columns 0-4 of the top band (0,0)-(5,10). -/
def bandChildA : PStats := PStats.mk (Rect.mk 0 0 5 10) (Rect.mk 0 0 5 10) 0 0 0 0

/-- Second band child: occupies columns 5-9 of the bottom band (5,20)-(10,30). -/
def bandChildB : PStats := PStats.mk (Rect.mk 5 20 10 30) (Rect.mk 5 20 10 30) 0 0 0 0

/-! ## Theorems -/

theorem pyRound_intCast (n : ℤ) : pyRound (n : ℚ) = n := by
  simp [pyRound]

/-- Claim C5: for all integers `x`, `low`, `high` with `low ≤ x ≤ high`,
decoding the encoded fraction returns the original value:
`_from_fraction (_to_fraction x low high) low high = x`
(with `round` to the nearest integer). -/
theorem claim_C5_codec_round_trip (x low high : ℤ) (h1 : low ≤ x) (h2 : x ≤ high) :
    ∃ t, _to_fraction x low high = some t ∧ _from_fraction t low high = some x := by
  rcases eq_or_lt_of_le (le_trans h1 h2) with heq | hlt
  · subst heq
    have hx : x = low := le_antisymm h2 h1
    subst hx
    exact ⟨1/2, by simp [_to_fraction], by simp [_from_fraction]⟩
  · refine ⟨((x : ℚ) - (low : ℚ)) / ((high : ℚ) - (low : ℚ)), ?_, ?_⟩
    · simp [_to_fraction, ne_of_lt hlt, hlt]
    · have hne : ((high : ℚ) - (low : ℚ)) ≠ 0 := by
        have : (low : ℚ) < (high : ℚ) := by exact_mod_cast hlt
        linarith
      have hval : (low : ℚ) + ((x : ℚ) - (low : ℚ)) / ((high : ℚ) - (low : ℚ)) *
          ((high : ℚ) - (low : ℚ)) = (x : ℚ) := by
        field_simp
      simp only [_from_fraction, if_neg (ne_of_lt hlt), if_pos hlt, hval, pyRound_intCast]

/-- Witness for C5 at `x = 3`, `low = 1`, `high = 5`. -/
theorem claim_C5_witness :
    (1 : ℤ) ≤ 3 ∧ (3 : ℤ) ≤ 5 ∧
    ∃ t, _to_fraction 3 1 5 = some t ∧ _from_fraction t 1 5 = some 3 :=
  ⟨by decide, by decide, claim_C5_codec_round_trip 3 1 5 (by decide) (by decide)⟩

/-- Claim C7: on a degenerate axis `low = high = k`, `_to_fraction` returns
`0.5` for every input and `_from_fraction` returns `k` for every fraction. -/
theorem claim_C7_degenerate_axis (x k : ℤ) (f : ℚ) :
    _to_fraction x k k = some (1/2) ∧ _from_fraction f k k = some k := by
  constructor
  · simp [_to_fraction]
  · simp [_from_fraction]

/-- Claim C1 (against the code): when the stage-2 minimization for a coarse
trial fails to converge, `_stage2optimize` returns the pair `(None, None)`,
so `stage1func` caches `(None, None)` and hands the absent value `None` —
not a very large finite score — back to the outer minimizer. -/
theorem claim_C1_stage2_failure_returns_absent :
    _stage2optimize demoProblem failingMinimizer [0] = some (none, none) ∧
    stage1func demoProblem failingMinimizer [0] = none := by
  constructor <;> decide

/-- Claim C2 (against the code): with child A occupying columns 0-4 of the
top band and child B occupying columns 5-9 of the bottom band inside bounds
of width 10, every band's occupancy is computed from the full child list
(variable `across` in the source is built but never consulted), so the code
reports unused width 0 while the spec's per-band computation reports 5; the
group constructor stores the code's value. -/
theorem claim_C2_band_occupancy_uses_all_children :
    calculate_unused_width_for_group [bandChildA, bandChildB] bandBounds = some 0 ∧
    calculate_unused_width_for_group_spec [bandChildA, bandChildB] bandBounds = some 5 ∧
    (mkGroup [some bandChildA, some bandChildB] bandBounds none).map
      (fun g => g.base.map (fun s => s.unused_width)) = some (some 0) := by
  refine ⟨by decide, by decide, by decide⟩

/-- Claim C6: when the stage-1 minimization itself fails to converge
(`_minimize` returns `(None, None)`), `run` returns the triple
`(None, None, None)` rather than raising. -/
theorem claim_C6_stage1_failure_absent_result (P : OptimizeProblem) (M : Minimizer)
    (x1init : OptParams) (trials : List (List ℚ))
    (h : _minimizeFull M (stage1func P M) x1init = (some none, trials)) :
    P.run M x1init = some (none, none, none) := by
  unfold OptimizeProblem.run
  rw [h]

/-- Witness for C6: a minimizer that reports failure makes `run` return the
absent triple. -/
theorem claim_C6_witness :
    _minimizeFull failingMinimizer (stage1func demoProblem failingMinimizer)
      (OptParams.mk [0] 0 1) = (some none, []) ∧
    demoProblem.run failingMinimizer (OptParams.mk [0] 0 1) = some (none, none, none) :=
  ⟨by decide,
   claim_C6_stage1_failure_absent_result demoProblem failingMinimizer
     (OptParams.mk [0] 0 1) [] (by decide)⟩

/-- Claim C4: whenever a trial has positive validity error — the initial fine
guess in `_stage2optimize`, or a fine trial inside `stage2func` — the value
handed to the minimizer is exactly `1e6 * (1 + err^2)`, independent of the
caller's `score` hook; and for two invalid trials the penalty is strictly
increasing in the validity error. -/
theorem claim_C4_validity_gate_penalty (P : OptimizeProblem) (M : Minimizer)
    (params1 : List ℤ) (p2i : OptParams) (hp2 : P.stage2parameters params1 = p2i) :
    (∀ err, P.validity_error p2i = err → 0 < err →
      ∀ s, _stage2optimize { P with score := s } M params1 =
        some (some (1000000 * (1 + err * err)), none)) ∧
    (∀ x2 e, P.validity_error (OptParams.mk x2 p2i.low p2i.high) = e → 0 < e →
      ∀ s, stage2func { P with score := s } params1 p2i x2 =
        some (1000000 * (1 + e * e))) ∧
    (∀ x2a x2b ea eb,
      P.validity_error (OptParams.mk x2a p2i.low p2i.high) = ea →
      P.validity_error (OptParams.mk x2b p2i.low p2i.high) = eb →
      0 < ea → ea < eb →
      ∃ va vb, stage2func P params1 p2i x2a = some va ∧
        stage2func P params1 p2i x2b = some vb ∧ va < vb) := by
  refine ⟨?_, ?_, ?_⟩
  · intro err herr hpos s
    simp only [_stage2optimize, hp2, herr, if_pos hpos]
  · intro x2 e he hpos s
    simp only [stage2func, he, if_pos hpos]
  · intro x2a x2b ea eb hea heb hpos hab
    refine ⟨1000000 * (1 + ea * ea), 1000000 * (1 + eb * eb), ?_, ?_, ?_⟩
    · simp only [stage2func, hea, if_pos hpos]
    · simp only [stage2func, heb, if_pos (lt_trans hpos hab)]
    · have hsq : ea * ea < eb * eb := by nlinarith
      linarith

/-- Witness for C4 on `gateDemoProblem`: initial fine guess with error 2 gets
penalty `1e6 * 5`; a fine trial with error 3 gets penalty `1e6 * 10`; trials
with errors 1 and 2 get strictly ordered penalties. -/
theorem claim_C4_witness :
    gateDemoProblem.stage2parameters [5] = OptParams.mk [2] 0 1 ∧
    gateDemoProblem.validity_error (OptParams.mk [2] 0 1) = 2 ∧ (0 : ℚ) < 2 ∧
    _stage2optimize { gateDemoProblem with score := fun _ _ => 0 } failingMinimizer [5] =
      some (some (1000000 * (1 + 2 * 2)), none) ∧
    stage2func { gateDemoProblem with score := fun _ _ => 0 } [5] (OptParams.mk [2] 0 1) [3] =
      some (1000000 * (1 + 3 * 3)) ∧
    (∃ va vb, stage2func gateDemoProblem [5] (OptParams.mk [2] 0 1) [1] = some va ∧
      stage2func gateDemoProblem [5] (OptParams.mk [2] 0 1) [2] = some vb ∧ va < vb) :=
  ⟨rfl, by decide, by decide,
   (claim_C4_validity_gate_penalty gateDemoProblem failingMinimizer [5]
     (OptParams.mk [2] 0 1) rfl).1 2 (by decide) (by decide) (fun _ _ => 0),
   (claim_C4_validity_gate_penalty gateDemoProblem failingMinimizer [5]
     (OptParams.mk [2] 0 1) rfl).2.1 [3] 3 (by decide) (by decide) (fun _ _ => 0),
   (claim_C4_validity_gate_penalty gateDemoProblem failingMinimizer [5]
     (OptParams.mk [2] 0 1) rfl).2.2 [1] [2] 1 2 (by decide) (by decide)
     (by decide) (by decide)⟩

/-- Helper: if some evaluated trial decodes to key `k` and the (deterministic)
stage-2 computation at `k` returned `e`, then the stage-1 cache contains `k`
and looking `k` up yields `e`. -/
theorem dictFind_stage1cache (P : OptimizeProblem) (M : Minimizer) (x_init : OptParams)
    (trials : List (List ℚ)) (k : List ℤ) (e : Option ℚ × Option OptParams)
    (he : _stage2optimize P M k = some e)
    (hmem : ∃ t ∈ trials, _array2tuple t x_init = some k) :
    dictFind (stage1cache P M x_init trials) k = some e ∧
    k ∈ (stage1cache P M x_init trials).map Prod.fst := by
  induction trials with
  | nil => simp at hmem
  | cons t ts ih =>
    rcases hmem with ⟨t1, ht1, hd⟩
    rcases List.mem_cons.mp ht1 with h | h
    · subst h
      have hcache : stage1cache P M x_init (t1 :: ts) =
          (k, e) :: stage1cache P M x_init ts := by
        simp [stage1cache, List.filterMap_cons, hd, he]
      rw [hcache]
      exact ⟨by simp [dictFind], by simp⟩
    · have htail := ih ⟨t1, h, hd⟩
      cases hh : (_array2tuple t x_init).bind
          (fun p1 => (_stage2optimize P M p1).map (fun e2 => (p1, e2))) with
      | none =>
        have hcache : stage1cache P M x_init (t :: ts) = stage1cache P M x_init ts := by
          simp [stage1cache, List.filterMap_cons, hh]
        rw [hcache]; exact htail
      | some entry =>
        have hcache : stage1cache P M x_init (t :: ts) =
            entry :: stage1cache P M x_init ts := by
          simp [stage1cache, List.filterMap_cons, hh]
        rw [hcache]
        rcases Option.bind_eq_some.mp hh with ⟨p1, hp1, hmap⟩
        rcases Option.map_eq_some'.mp hmap with ⟨e2, he2, hent⟩
        by_cases hk : entry.1 = k
        · have hp1k : p1 = k := by rw [← hent] at hk; exact hk
          subst hp1k
          have he2e : e2 = e := Option.some_inj.mp (he2.symm.trans he)
          subst he2e
          rw [← hent]
          exact ⟨by simp [dictFind], by simp⟩
        · refine ⟨?_, ?_⟩
          · cases entry with
            | mk k2 v2 => simp only [dictFind, if_neg hk]; exact htail.1
          · simp only [List.map_cons, List.mem_cons]
            exact Or.inr htail.2

/-- Claim C3 (amended): when the stage-1 minimization succeeds, the
minimizer's winning vector decodes to a coarse tuple it evaluated, and that
decoded tuple is nonempty (an empty tuple is falsy through
`OptParams.__len__`, making `run` return the absent triple instead), `run`
returns the decoded best coarse tuple together with exactly the
`(score, fine-params)` pair that the stage-1 cache holds for that tuple
(stage 2 is not re-run: the cached value is returned as-is), and the returned
coarse tuple is a key present in the cache. -/
theorem claim_C3_run_returns_cached_pair (P : OptimizeProblem) (M : Minimizer)
    (x1init : OptParams) (x0 : List ℚ) (out : MinimizeOutcome) (opt1 : OptParams)
    (hp : _params2array x1init = some x0)
    (hout : M (fun x => (_array2tuple x x1init).bind (stage1func P M)) x0 = out)
    (hnc : out.trials.any
      (fun t => ((_array2tuple t x1init).bind (stage1func P M)).isNone) = false)
    (hs : out.success = true)
    (hdec : _array2params out.xopt x1init = some opt1)
    (hlen : opt1.len ≠ 0)
    (hmem : ∃ t ∈ out.trials, _array2tuple t x1init = some opt1.value) :
    ∃ f p2, _stage2optimize P M opt1.value = some (some f, p2) ∧
      P.run M x1init = some (some f, some opt1, p2) ∧
      opt1.value ∈ (stage1cache P M x1init out.trials).map Prod.fst := by
  rcases hmem with ⟨t, ht, hd⟩
  have hts : ((_array2tuple t x1init).bind (stage1func P M)).isNone = false :=
    Bool.eq_false_iff.mpr (List.any_eq_false.mp hnc t ht)
  rw [hd] at hts
  simp only [Option.some_bind] at hts
  cases hso : _stage2optimize P M opt1.value with
  | none =>
    have hn : stage1func P M opt1.value = none := by simp [stage1func, hso]
    rw [hn] at hts
    simp at hts
  | some pr =>
    obtain ⟨f1, p2⟩ := pr
    cases hf1 : f1 with
    | none =>
      subst hf1
      have hn : stage1func P M opt1.value = none := by simp [stage1func, hso]
      rw [hn] at hts
      simp at hts
    | some v =>
      subst hf1
      have hcache := dictFind_stage1cache P M x1init out.trials opt1.value
        (some v, p2) hso ⟨t, ht, hd⟩
      have hfull : _minimizeFull M (stage1func P M) x1init =
          (some (some (out.fval, opt1)), out.trials) := by
        simp only [_minimizeFull, hp, hout, hnc, hs, hdec]
        simp
      refine ⟨v, p2, rfl, ?_, hcache.2⟩
      simp only [OptimizeProblem.run, hfull]
      rw [if_pos hlen, hcache.1]

/-- Witness for C3: a one-point problem on degenerate axes with a minimizer
that evaluates the start vector and returns it as the optimum. -/
theorem claim_C3_witness :
    _params2array (OptParams.mk [5] 5 5) = some [1/2] ∧
    (MinimizeOutcome.mk true [1/2] 0 [[1/2]]).success = true ∧
    (OptParams.mk [5] 5 5).len ≠ 0 ∧
    (∃ f p2, _stage2optimize degenProblem echoMinimizer [5] = some (some f, p2) ∧
      degenProblem.run echoMinimizer (OptParams.mk [5] 5 5) =
        some (some f, some (OptParams.mk [5] 5 5), p2) ∧
      [5] ∈ (stage1cache degenProblem echoMinimizer (OptParams.mk [5] 5 5)
        [[1/2]]).map Prod.fst) :=
  ⟨rfl, rfl, by decide,
   claim_C3_run_returns_cached_pair degenProblem echoMinimizer (OptParams.mk [5] 5 5)
     [1/2] (MinimizeOutcome.mk true [1/2] 0 [[1/2]]) (OptParams.mk [5] 5 5)
     rfl rfl rfl rfl rfl (by decide) ⟨[1/2], List.mem_singleton.mpr rfl, rfl⟩⟩

/-- Counterexample to C3 as stated: on an empty coarse parameter set the
stage-1 minimization succeeds (first conjunct) and the stage-1 cache holds
the stage-2 pair for the decoded (empty) winning tuple (second conjunct), yet
`run` returns the absent triple `(None, None, None)` instead of the cached
pair, because `OptParams.__len__` makes the empty decoded tuple falsy in
`if opt1:` (third conjunct). -/
theorem claim_C3_empty_coarse_counterexample :
    _minimizeFull echoMinimizer (stage1func degenProblem echoMinimizer)
      (OptParams.mk [] 5 5) = (some (some (0, OptParams.mk [] 5 5)), [[]]) ∧
    dictFind (stage1cache degenProblem echoMinimizer (OptParams.mk [] 5 5) [[]]) [] =
      some (some 0, some (OptParams.mk [7] 7 7)) ∧
    degenProblem.run echoMinimizer (OptParams.mk [] 5 5) = some (none, none, none) :=
  ⟨rfl, rfl, rfl⟩

/-- Claim C8: for an error node, `error_from_size` is exactly
`1e9 - actual.width * actual.height`, independent of the bad/good weight
arguments and strictly decreasing as the actual area grows; under realistic
magnitudes (area at most `5e8` and a combined break + size + variance penalty
below `5e8`) it exceeds any combination of the ordinary penalties. -/
theorem claim_C8_error_sentinel_dominates (bounds : Rect) (mb mg mb2 mg2 : ℚ) :
    ErrorContent.error_from_size (errorContentStats bounds) mb mg =
      1000000000 - ((bounds.width * bounds.height : ℤ) : ℚ) ∧
    ErrorContent.error_from_size (errorContentStats bounds) mb mg =
      ErrorContent.error_from_size (errorContentStats bounds) mb2 mg2 ∧
    (∀ b2 : Rect, bounds.width * bounds.height < b2.width * b2.height →
      ErrorContent.error_from_size (errorContentStats b2) mb mg <
        ErrorContent.error_from_size (errorContentStats bounds) mb mg) ∧
    (∀ (s : PStats) (wb wg wv : ℚ),
      bounds.width * bounds.height ≤ 500000000 →
      PlacedContent.error_from_breaks s wb wg + PlacedContent.error_from_size s wb wg +
        PlacedContent.error_from_variance s wv < 500000000 →
      PlacedContent.error_from_breaks s wb wg + PlacedContent.error_from_size s wb wg +
        PlacedContent.error_from_variance s wv <
        ErrorContent.error_from_size (errorContentStats bounds) mb mg) := by
  refine ⟨rfl, rfl, ?_, ?_⟩
  · intro b2 h
    simp only [ErrorContent.error_from_size, errorContentStats]
    have hc : ((bounds.width * bounds.height : ℤ) : ℚ) <
        ((b2.width * b2.height : ℤ) : ℚ) := by exact_mod_cast h
    linarith
  · intro s wb wg wv harea hcomb
    simp only [ErrorContent.error_from_size, errorContentStats]
    have hc : ((bounds.width * bounds.height : ℤ) : ℚ) ≤ 500000000 := by
      exact_mod_cast harea
    linarith

/-- Sample non-error node statistics for the C8 witness: 2 good breaks, 1 bad
break, 3 units of slack, variance 4. -/
def demoStats : PStats :=
  PStats.mk (Rect.mk 0 0 10 10) (Rect.mk 0 0 8 10) 2 1 3 4

/-- Witness for C8: with unit weights the sample node's combined penalty is
10, which the error sentinel for a 20x30 node (value `1e9 - 600`) exceeds. -/
theorem claim_C8_witness :
    ((Rect.mk 0 0 20 30).width * (Rect.mk 0 0 20 30).height ≤ 500000000) ∧
    (PlacedContent.error_from_breaks demoStats 1 1 +
      PlacedContent.error_from_size demoStats 1 1 +
      PlacedContent.error_from_variance demoStats 1 < 500000000) ∧
    (PlacedContent.error_from_breaks demoStats 1 1 +
      PlacedContent.error_from_size demoStats 1 1 +
      PlacedContent.error_from_variance demoStats 1 <
      ErrorContent.error_from_size (errorContentStats (Rect.mk 0 0 20 30)) 5 7) :=
  ⟨by decide,
   by norm_num [PlacedContent.error_from_breaks, PlacedContent.error_from_size,
     PlacedContent.error_from_variance, demoStats],
   (claim_C8_error_sentinel_dominates (Rect.mk 0 0 20 30) 5 7 0 0).2.2.2 demoStats 1 1 1
     (by decide)
     (by norm_num [PlacedContent.error_from_breaks, PlacedContent.error_from_size,
       PlacedContent.error_from_variance, demoStats])⟩

/-- Claim C9: `move(dx, dy)` translates both the requested and the actual
rectangle by exactly `(dx, dy)`, leaves `ok_breaks`, `bad_breaks`,
`unused_width` and `internal_variance` unchanged, and on a group recursively
moves every child by the same offsets. -/
theorem claim_C9_move_translates_rects_only (p : Placed) (dx dy : ℤ) :
    (p.move dx dy).stats.requested = p.stats.requested.move dx dy ∧
    (p.move dx dy).stats.actual = p.stats.actual.move dx dy ∧
    (p.move dx dy).stats.ok_breaks = p.stats.ok_breaks ∧
    (p.move dx dy).stats.bad_breaks = p.stats.bad_breaks ∧
    (p.move dx dy).stats.unused_width = p.stats.unused_width ∧
    (p.move dx dy).stats.internal_variance = p.stats.internal_variance ∧
    (p.move dx dy).children = p.children.map (Placed.move dx dy) := by
  cases p with
  | leaf s =>
    simp [Placed.move, Placed.stats, Placed.children, PStats.moveBy]
  | group s cs =>
    simp [Placed.move, Placed.stats, Placed.children, PStats.moveBy,
      List.attach_map_val]

/-- Claim C10: constructing a `PlacedGroupContent` from children that are all
absent (or an empty list) returns early: the base fields stay unset and
`error_from_size`, `move` and `draw` all fail on the missing attributes. -/
theorem claim_C10_empty_group_partial_object (children : List (Option PStats))
    (requested : Rect) (actualArg : Option Rect) (mb mg : ℚ) (dx dy : ℤ)
    (h : ∀ c ∈ children, c = none) :
    mkGroup children requested actualArg = some (GroupObj.mk [] none) ∧
    (GroupObj.mk [] none : GroupObj).error_from_size mb mg = none ∧
    (GroupObj.mk [] none : GroupObj).move dx dy = none ∧
    (GroupObj.mk [] none : GroupObj).draw = none := by
  have hg : children.filterMap id = [] := by
    rw [List.filterMap_eq_nil_iff]
    simpa using h
  refine ⟨?_, rfl, rfl, rfl⟩
  simp only [mkGroup, hg]

/-- Witness for C10: a two-element list of absent children. -/
theorem claim_C10_witness :
    (∀ c ∈ ([none, none] : List (Option PStats)), c = none) ∧
    (mkGroup [none, none] (Rect.mk 0 0 10 10) none = some (GroupObj.mk [] none) ∧
      (GroupObj.mk [] none : GroupObj).error_from_size 1 2 = none ∧
      (GroupObj.mk [] none : GroupObj).move 3 4 = none ∧
      (GroupObj.mk [] none : GroupObj).draw = none) :=
  ⟨by simp,
   claim_C10_empty_group_partial_object [none, none] (Rect.mk 0 0 10 10) none 1 2 3 4
     (by simp)⟩
